import Mathlib

/-!
# Verification of the rosnav observation-space encoding pipeline

Shallow embedding of the laser observation-space code of this repository:

* `rosnav/utils/observation_space/spaces/feature_maps/stacked_laser_map_space.py`
  (`StackedLaserMapSpace`: `_reset_laser_stack`, `_process_laser_scan`,
  `_build_laser_map`, `get_gym_space`, `encode_observation`);
* `rosnav/utils/observation_space/spaces/base/laser_space.py`
  (`LaserScanSpace.get_gym_space`, `LaserScanSpace.encode_observation`).

Modelling conventions:

* numpy float arithmetic is idealised as real arithmetic (`ℝ`); a 1-D numpy
  array is a `List ℝ`, a 2-D array a `List (List ℝ)` in row-major order;
* the Python `deque` used as laser queue is a `List (List ℝ)` whose head is
  the leftmost deque element, so `appendleft` is `cons` and `pop` (which
  removes the rightmost element) is `dropLast`;
* numpy calls that raise inside the `try` block of `_build_laser_map`
  (`np.array(..., dtype=np.float32)` on a ragged queue, `np.min` on an empty
  slice) are modelled by the guards of `buildBody`, which returns
  `Except.error` exactly when the body would raise; the `except` clause is
  the `.error` branch of `buildLaserMap`;
* `_build_laser_map`'s successful result is an 80×80 array that the caller
  (`encode_observation`) immediately flattens; since the final
  `reshape((80, 80))` is row-major chunking, we model the build result as the
  flat length-6400 vector (reshape-then-flatten is the identity on it).
-/

namespace Rosnav

/-- The literal `0.000000000001` used in `_process_laser_scan` (line 123). -/
noncomputable def tinyEps : ℝ := 1 / 10 ^ 12

/-- Target beam angle: `theta = (i - self.scan_size_des/2) * self.scan_angle_increment_des`
with `scan_size_des = 720` and `scan_angle_increment_des = 2*pi/(720 - 1)`. -/
noncomputable def tgtTheta (i : ℕ) : ℝ :=
  ((i : ℝ) - 720 / 2) * (2 * Real.pi / (720 - 1))

/-- The source-grid position `(theta + pi) / angle_increment_orig` with
`angle_increment_orig = 2*pi/(range_size - 1)` and `range_size = 512`. -/
noncomputable def srcPos (i : ℕ) : ℝ :=
  (tgtTheta i + Real.pi) / (2 * Real.pi / (512 - 1))

/-- Code `idx_low = np.max([0, int(np.floor((theta + pi) / angle_increment_orig))])`.
The code clamps only from below. -/
noncomputable def idxLow (i : ℕ) : ℤ := max 0 ⌊srcPos i⌋

/-- Code `idx_high = np.min([range_size - 1, int(np.ceil((theta + pi) / angle_increment_orig))])`.
The code clamps only from above. -/
noncomputable def idxHigh (i : ℕ) : ℤ := min (512 - 1) ⌈srcPos i⌉

/-- Native beam angle at source index `j`:
`(j - range_size/2) * angle_increment_orig` with `range_size = 512`. -/
noncomputable def srcTheta (j : ℤ) : ℝ :=
  ((j : ℝ) - 512 / 2) * (2 * Real.pi / (512 - 1))

/-- numpy 1-D indexing `a[idx]` for an integer index: negative indices wrap
from the end; out-of-bounds access (which would raise) defaults to `0` and is
ruled out by the index bounds established in the proofs below. -/
def npGet (scan : List ℝ) (idx : ℤ) : ℝ :=
  if idx < 0 then scan.getD (scan.length - idx.natAbs) 0 else scan.getD idx.toNat 0

/-- Line 123 of `_process_laser_scan`:
`laser_scan[idx_low] + ((theta - theta_low) / (0.000000000001 + theta_high - theta_low))
 * (laser_scan[idx_high] - laser_scan[idx_low])`. -/
noncomputable def interpAt (scan : List ℝ) (i : ℕ) : ℝ :=
  npGet scan (idxLow i) +
    ((tgtTheta i - srcTheta (idxLow i)) /
        (tinyEps + srcTheta (idxHigh i) - srcTheta (idxLow i))) *
      (npGet scan (idxHigh i) - npGet scan (idxLow i))

/-- Lines 91–124 of `_process_laser_scan`: when the incoming scan has length
exactly 512 it is resampled to 720 entries by the interpolation loop,
otherwise it passes through unchanged. -/
noncomputable def resampleStep (scan : List ℝ) : List ℝ :=
  if scan.length = 512 then (List.range 720).map (interpAt scan) else scan

/-- Source `_reset_laser_stack`: `deque([np.zeros_like(laser_scan)] * laser_stack_size)`. -/
def resetLaserStack (stackSize : ℕ) (laserScan : List ℝ) : List (List ℝ) :=
  List.replicate stackSize (List.replicate laserScan.length 0)

/-- Model of `np.min` of a nonempty 1-D array; on the empty array `np.min` raises,
which `buildBody` models with its `groupsOK` guard, so the `[]` default is
never relied upon. -/
def npMin : List ℝ → ℝ
  | [] => 0
  | x :: xs => xs.foldl min x

/-- Model of `np.mean` of a 1-D array: sum divided by length. -/
noncomputable def npMean (l : List ℝ) : ℝ := l.sum / (l.length : ℝ)

/-- Slice `scan_tmp = temp[n * 720 : (n + 1) * 720]` (line 170): Python slicing,
which clips silently at the end of the array. -/
def scanTmp (temp : List ℝ) (n : ℕ) : List ℝ := (temp.drop (720 * n)).take 720

/-- Slice `scan_tmp[i * 9 : (i + 1) * 9]` (lines 172–173). -/
def group9 (temp : List ℝ) (n i : ℕ) : List ℝ := ((scanTmp temp n).drop (9 * i)).take 9

/-- Entry `(r, c)` of the 20×80 `scan_avg` matrix after the assignment loop of
`_build_laser_map`: even rows `2n` get `np.min`, odd rows `2n+1` get
`np.mean` of the 9-element slices of scan `n` (lines 168–173). -/
noncomputable def scanAvgEntry (temp : List ℝ) (r c : ℕ) : ℝ :=
  if r % 2 = 0 then npMin (group9 temp (r / 2) c) else npMean (group9 temp (r / 2) c)

/-- Reshape `scan_avg.reshape(1600)` (line 175): the row-major flattening of the
20×80 matrix. -/
noncomputable def scanAvgFlat (temp : List ℝ) : List ℝ :=
  (List.range 1600).map (fun k => scanAvgEntry temp (k / 80) (k % 80))

/-- Tiling `np.matlib.repmat(scan_avg, 1, 4)` (line 176): four concatenated copies,
6400 values; the final `reshape((80, 80))` is row-major chunking and the
caller flattens again, so the flat vector is the modelled result. -/
noncomputable def tiledMap (temp : List ℝ) : List ℝ :=
  scanAvgFlat temp ++ scanAvgFlat temp ++ scanAvgFlat temp ++ scanAvgFlat temp

/-- The call `np.array(laser_queue, dtype=np.float32)` (line 167) raises unless all
queue entries have equal length. -/
def notRagged (q : List (List ℝ)) : Prop :=
  ∀ s ∈ q, s.length = (q.headD []).length

instance (q : List (List ℝ)) : Decidable (notRagged q) :=
  List.decidableBAll _ q

/-- The call `np.min(scan_tmp[i * 9 : (i + 1) * 9])` (line 172) raises when the slice
is empty; the loop reaches every `n < 10`, `i < 80`. -/
def groupsOK (temp : List ℝ) : Prop :=
  ∀ n < 10, ∀ i < 80, (group9 temp n i).length ≠ 0

instance (temp : List ℝ) : Decidable (groupsOK temp) :=
  Nat.decidableBallLT _ _

/-- The `try` body of `_build_laser_map` (lines 167–176): `Except.error`
exactly when a numpy call in the body raises, `Except.ok` with the computed
(row-major flattened) 80×80 map otherwise. -/
noncomputable def buildBody (q : List (List ℝ)) : Except Unit (List ℝ) :=
  if notRagged q then
    if groupsOK q.flatten then .ok (tiledMap q.flatten) else .error ()
  else .error ()

/-- Source `_build_laser_map` (lines 147–183): the `try`/`except` wrapper; on any
exception it logs a warning and returns `np.zeros(self.get_gym_space().shape)`,
an all-zero array of length `feature_map_size * feature_map_size`. -/
noncomputable def buildLaserMap (fm : ℕ) (q : List (List ℝ)) : List ℝ :=
  match buildBody q with
  | .ok m => m
  | .error _ => List.replicate (fm * fm) 0

/-- The laser channel of an observation: either a numpy `ndarray` or some
other value (`type(laser_scan) is not np.ndarray`). -/
inductive ScanInput where
  | arr : List ℝ → ScanInput
  | notArray : ScanInput

/-- Source `_process_laser_scan` (lines 71–134), returning the produced map and the
queue state after the call:
1. a non-`ndarray` input returns `np.zeros((fm * fm,))` at once (lines 83–84);
2. an empty queue is reset from the *raw* scan (lines 86–87);
3. the length-512 resampling shim runs (lines 91–124);
4. `pop` then `appendleft` push the (possibly resampled) scan (lines 126–127);
5. the map is built from the queue (line 129);
6. on `done` the queue is reset from the (possibly resampled) scan (131–132). -/
noncomputable def processLaserScan (fm stackSize : ℕ) (input : ScanInput) (done : Bool)
    (q : List (List ℝ)) : List ℝ × List (List ℝ) :=
  match input with
  | .notArray => (List.replicate (fm * fm) 0, q)
  | .arr laserScan =>
    let q1 := if q.length = 0 then resetLaserStack stackSize laserScan else q
    let scanNew := resampleStep laserScan
    let q2 := scanNew :: q1.dropLast
    let out := buildLaserMap fm q2
    let q3 := if done then resetLaserStack stackSize scanNew else q2
    (out, q3)

/-- One encode step of the queue state: `runQueue` folds `processLaserScan`
(with `ndarray` inputs) over a call sequence, starting from the empty queue
the constructor creates (`self._laser_queue = deque()`). -/
noncomputable def queueStep (fm stackSize : ℕ) (q : List (List ℝ))
    (call : List ℝ × Bool) : List (List ℝ) :=
  (processLaserScan fm stackSize (.arr call.1) call.2 q).2

/-- Queue state after a sequence of encode calls starting from the empty
queue. -/
noncomputable def runQueue (fm stackSize : ℕ) (calls : List (List ℝ × Bool)) :
    List (List ℝ) :=
  calls.foldl (queueStep fm stackSize) []

/-- A gymnasium `Box` space over a 1-D shape, as declared by
`StackedLaserMapSpace.get_gym_space`. -/
structure Box1 where
  low : ℝ
  high : ℝ
  shape : ℕ
  dtype : String

/-- Source `StackedLaserMapSpace.get_gym_space` (lines 185–198):
`Box(low=0, high=roi_in_m, shape=(feature_map_size * feature_map_size,), dtype=float32)`. -/
noncomputable def stackedGymSpace (fm : ℕ) (roi : ℝ) : Box1 :=
  ⟨0, roi, fm * fm, "float32"⟩

/-- A gymnasium `Box` space over a 2-D shape, as declared by
`LaserScanSpace.get_gym_space`. -/
structure Box2 where
  low : ℝ
  high : ℝ
  shape : ℕ × ℕ
  dtype : String

/-- Source `LaserScanSpace.get_gym_space` (`laser_space.py`, lines 35–47):
`Box(low=0, high=laser_max_range, shape=(1, laser_num_beams), dtype=float32)`. -/
noncomputable def laserGymSpace (numBeams : ℕ) (maxRange : ℝ) : Box2 :=
  ⟨0, maxRange, (1, numBeams), "float32"⟩

/-- The body of `LaserScanSpace.encode_observation` (`laser_space.py`,
line 62): `observation[LaserCollector.name][np.newaxis, :]`, the input 1-D
array with a leading axis of extent 1 prepended. -/
def laserEncodeBody (obs : List ℝ) : List (List ℝ) := [obs]

/-- Modelled from the spec: the shared `BaseObservationSpace.apply_normalization`
wrapper is defined in `base_observation_space.py`, which is not among the
provided source files. The spec (§4.4) says each encode "may apply a post-hoc
normalization step (rescale into `[-1,1]` or `[0,1]` using declared bounds)"
through this shared wrapper, without fixing a rescale formula; we model the
configuration in which no rescaling is applied, i.e. the wrapper returns the
wrapped encode's result unchanged. -/
def applyNormalizationWrapper (encoded : List (List ℝ)) : List (List ℝ) := encoded

/-- Source `LaserScanSpace.encode_observation` as seen by the caller: the decorated
body. -/
def laserEncodeObservation (obs : List ℝ) : List (List ℝ) :=
  applyNormalizationWrapper (laserEncodeBody obs)

/-- The shape of a 2-D row-major array. -/
def shape2 (m : List (List ℝ)) : ℕ × ℕ := (m.length, (m.headD []).length)

/-! ## Spec-side definitions

The following definitions are written from the spec's words (for the
refinement claims C1 and C2), to be compared with the source-side
definitions above. -/

/-- Spec C2: the target angle `θ_i = (i − 360) · 2π/719`. -/
noncomputable def specTheta (i : ℕ) : ℝ := ((i : ℝ) - 360) * (2 * Real.pi / 719)

/-- Spec C2: `idx_low = clamp(floor((θ_i + π) / Δ_src), 0, 511)` with
`Δ_src = 2π/511`. -/
noncomputable def specIdxLow (i : ℕ) : ℤ :=
  min 511 (max 0 ⌊(specTheta i + Real.pi) / (2 * Real.pi / 511)⌋)

/-- Spec C2: `idx_high = clamp(ceil((θ_i + π) / Δ_src), 0, 511)`. -/
noncomputable def specIdxHigh (i : ℕ) : ℤ :=
  min 511 (max 0 ⌈(specTheta i + Real.pi) / (2 * Real.pi / 511)⌉)

/-- Spec C2: the native beam angle at a source index, `(j − 256) · 2π/511`. -/
noncomputable def specBeamAngle (j : ℤ) : ℝ := ((j : ℝ) - 256) * (2 * Real.pi / 511)

/-- Spec C2: the resampled entry at target index `i`:
`laser[idx_low] + ((θ_i − θ_low) / (θ_high − θ_low + 1e-12)) · (laser[idx_high] − laser[idx_low])`. -/
noncomputable def specInterpAt (laser : List ℝ) (i : ℕ) : ℝ :=
  laser.getD (specIdxLow i).toNat 0 +
    ((specTheta i - specBeamAngle (specIdxLow i)) /
        (specBeamAngle (specIdxHigh i) - specBeamAngle (specIdxLow i) + 1 / 10 ^ 12)) *
      (laser.getD (specIdxHigh i).toNat 0 - laser.getD (specIdxLow i).toNat 0)

/-- Spec C1: the 80 contiguous 9-element groups of a scan; group `i` holds
elements `9i, …, 9i+8`. -/
def specGroup (scan : List ℝ) (i : ℕ) : List ℝ := (scan.drop (9 * i)).take 9

/-- Spec C1: the row of per-group minima of scan `n`. -/
def specMinRow (q : List (List ℝ)) (n : ℕ) : List ℝ :=
  (List.range 80).map (fun i => npMin (specGroup (q.getD n []) i))

/-- Spec C1: the row of per-group means of scan `n`. -/
noncomputable def specMeanRow (q : List (List ℝ)) (n : ℕ) : List ℝ :=
  (List.range 80).map (fun i => npMean (specGroup (q.getD n []) i))

/-- Spec C1: the 20×80 intermediate matrix whose row `2n` holds the per-group
minima of scan `n` and whose row `2n+1` holds the per-group means. -/
noncomputable def specIntermediate (q : List (List ℝ)) : List (List ℝ) :=
  ((List.range 10).map (fun n => [specMinRow q n, specMeanRow q n])).flatten

/-- Spec C1: flatten the 20×80 matrix (1600 values) and tile it 4 times
(6400 values). -/
noncomputable def specTiled (q : List (List ℝ)) : List ℝ :=
  (specIntermediate q).flatten ++ (specIntermediate q).flatten ++
    (specIntermediate q).flatten ++ (specIntermediate q).flatten

/-- Spec C1: the 6400 tiled values reshaped into an 80×80 square (row-major). -/
noncomputable def specMap2D (q : List (List ℝ)) : List (List ℝ) :=
  (List.range 80).map (fun r => ((specTiled q).drop (80 * r)).take 80)

/-! ## Helper lemmas -/

lemma getD_map_range {α : Type} [Inhabited α] (f : ℕ → α) (n i : ℕ) (h : i < n) (d : α) :
    ((List.range n).map f).getD i d = f i := by
  rw [List.getD_eq_getElem _ _ (by simpa using h)]
  simp

lemma resampleStep_of_length_ne (scan : List ℝ) (h : scan.length ≠ 512) :
    resampleStep scan = scan := by
  simp [resampleStep, h]

lemma resampleStep_length_of_512 (scan : List ℝ) (h : scan.length = 512) :
    (resampleStep scan).length = 720 := by
  simp [resampleStep, h]

lemma resetLaserStack_length (n : ℕ) (scan : List ℝ) :
    (resetLaserStack n scan).length = n := by
  simp [resetLaserStack]

lemma processLaserScan_arr_snd (fm n : ℕ) (scan : List ℝ) (done : Bool)
    (q : List (List ℝ)) :
    (processLaserScan fm n (.arr scan) done q).2 =
      if done then resetLaserStack n (resampleStep scan)
      else resampleStep scan ::
        (if q.length = 0 then resetLaserStack n scan else q).dropLast := by
  simp only [processLaserScan]

lemma queueStep_length (fm n : ℕ) (hn : 0 < n) (q : List (List ℝ))
    (c : List ℝ × Bool) (hq : q = [] ∨ q.length = n) :
    (queueStep fm n q c).length = n := by
  unfold queueStep
  rw [processLaserScan_arr_snd]
  rcases c with ⟨scan, done⟩
  cases done with
  | true => simp [resetLaserStack_length]
  | false =>
    rcases hq with hq | hq
    · subst hq
      simp [resetLaserStack_length, List.length_dropLast, resetLaserStack]
      omega
    · have hne : ¬ q.length = 0 := by omega
      simp only [Bool.false_eq_true, if_false, if_neg hne, List.length_cons,
        List.length_dropLast]
      omega

lemma foldl_queueStep_length (fm n : ℕ) (hn : 0 < n) (calls : List (List ℝ × Bool)) :
    ∀ q : List (List ℝ), q.length = n →
      (calls.foldl (queueStep fm n) q).length = n := by
  induction calls with
  | nil => intro q hq; simpa using hq
  | cons c rest ih =>
    intro q hq
    simp only [List.foldl_cons]
    exact ih _ (queueStep_length fm n hn q c (Or.inr hq))

lemma flatten_slice_eq_getD (L : ℕ) :
    ∀ (q : List (List ℝ)), (∀ s ∈ q, s.length = L) →
      ∀ n < q.length, (q.flatten.drop (L * n)).take L = q.getD n [] := by
  intro q
  induction q with
  | nil => intro _ n hn; simp at hn
  | cons s rest ih =>
    intro hL n hn
    have hs : s.length = L := hL s (List.mem_cons_self s rest)
    cases n with
    | zero =>
      simp only [Nat.mul_zero, List.flatten_cons, List.drop_zero, List.getD_cons_zero]
      rw [← hs]
      exact List.take_left s rest.flatten
    | succ n =>
      have hrest : ∀ t ∈ rest, t.length = L := fun t ht =>
        hL t (List.mem_cons_of_mem s ht)
      have hn' : n < rest.length := by simpa using hn
      have hix : L * (n + 1) = s.length + L * n := by rw [hs]; ring
      simp only [List.flatten_cons, List.getD_cons_succ, hix, List.drop_append]
      exact ih hrest n hn'

lemma chunk_flatten (m : ℕ) :
    ∀ (k : ℕ) (l : List ℝ), l.length = k * m →
      ((List.range k).map (fun r => (l.drop (m * r)).take m)).flatten = l := by
  intro k
  induction k with
  | zero =>
    intro l hl
    simp only [Nat.zero_mul] at hl
    simp [List.length_eq_zero.mp hl]
  | succ k ih =>
    intro l hl
    rw [List.range_succ_eq_map]
    simp only [List.map_cons, List.map_map, List.flatten_cons, Nat.mul_zero,
      List.drop_zero]
    have hcomp : ((fun r => (l.drop (m * r)).take m) ∘ Nat.succ) =
        fun r => ((l.drop m).drop (m * r)).take m := by
      funext r
      simp only [Function.comp_apply, List.drop_drop]
      rw [Nat.mul_succ, Nat.add_comm]
    rw [hcomp, ih (l.drop m) (by simp [hl, Nat.succ_mul])]
    exact List.take_append_drop m l

lemma pair_flatten (f g : ℕ → List ℝ) :
    ∀ a : ℕ, ((List.range a).map (fun n => [f n, g n])).flatten =
      (List.range (2 * a)).map (fun r => if r % 2 = 0 then f (r / 2) else g (r / 2)) := by
  intro a
  induction a with
  | zero => simp
  | succ a ih =>
    rw [List.range_succ, Nat.mul_succ, List.range_add]
    have h2 : List.range 2 = [0, 1] := by decide
    simp only [List.map_append, List.flatten_append, ih, h2, List.map_cons,
      List.map_nil, List.flatten_cons, List.flatten_nil, List.append_nil]
    congr 1
    have e0 : (2 * a + 0) % 2 = 0 := by omega
    have e0' : (2 * a + 0) / 2 = a := by omega
    have e1 : ¬ (2 * a + 1) % 2 = 0 := by omega
    have e1' : (2 * a + 1) / 2 = a := by omega
    simp [e0, e0', e1, e1']

lemma range_mul_map_flatten (b : ℕ) (f : ℕ → ℝ) :
    ∀ a : ℕ, (List.range (a * b)).map f =
      ((List.range a).map (fun r => (List.range b).map (fun c => f (b * r + c)))).flatten := by
  intro a
  induction a with
  | zero => simp
  | succ a ih =>
    rw [Nat.succ_mul, List.range_add, List.range_succ]
    simp only [List.map_append, List.map_map, ih, List.flatten_append, List.map_cons,
      List.map_nil, List.flatten_cons, List.flatten_nil, List.append_nil]
    congr 1
    apply List.map_congr_left
    intro c _
    simp [Function.comp, Nat.mul_comm a b]

lemma group9_eq_specGroup (q : List (List ℝ)) (h720 : ∀ s ∈ q, s.length = 720)
    (n : ℕ) (hn : n < q.length) (i : ℕ) :
    group9 q.flatten n i = specGroup (q.getD n []) i := by
  unfold group9 specGroup scanTmp
  rw [flatten_slice_eq_getD 720 q h720 n hn]

lemma flatten_length_of_uniform (q : List (List ℝ)) (L : ℕ)
    (hL : ∀ s ∈ q, s.length = L) : q.flatten.length = q.length * L := by
  rw [List.length_flatten]
  have : q.map List.length = List.replicate q.length L := by
    rw [List.eq_replicate_iff]
    refine ⟨by simp, ?_⟩
    intro b hb
    obtain ⟨s, hs, rfl⟩ := List.mem_map.mp hb
    exact hL s hs
  rw [this, List.sum_replicate, smul_eq_mul]

lemma notRagged_of_uniform (q : List (List ℝ)) (h10 : q.length = 10)
    (h720 : ∀ s ∈ q, s.length = 720) : notRagged q := by
  intro s hs
  cases q with
  | nil => simp at h10
  | cons s0 rest =>
    simp only [List.headD_cons]
    rw [h720 s hs, h720 s0 (List.mem_cons_self s0 rest)]

lemma groupsOK_of_uniform (q : List (List ℝ)) (h10 : q.length = 10)
    (h720 : ∀ s ∈ q, s.length = 720) : groupsOK q.flatten := by
  have htemp : q.flatten.length = 7200 := by
    rw [flatten_length_of_uniform q 720 h720, h10]
  intro n hn i hi
  simp only [group9, scanTmp, List.length_take, List.length_drop, htemp]
  omega

lemma buildBody_ok (q : List (List ℝ)) (h10 : q.length = 10)
    (h720 : ∀ s ∈ q, s.length = 720) :
    buildBody q = .ok (tiledMap q.flatten) := by
  rw [buildBody, if_pos (notRagged_of_uniform q h10 h720),
    if_pos (groupsOK_of_uniform q h10 h720)]

lemma scanAvgFlat_eq_specIntermediate (q : List (List ℝ)) (h10 : q.length = 10)
    (h720 : ∀ s ∈ q, s.length = 720) :
    scanAvgFlat q.flatten = (specIntermediate q).flatten := by
  rw [specIntermediate, pair_flatten, scanAvgFlat,
    show (1600 : ℕ) = 20 * 80 from rfl, range_mul_map_flatten,
    show 2 * 10 = 20 from rfl]
  congr 1
  apply List.map_congr_left
  intro r hr
  have hr20 : r < 20 := List.mem_range.mp hr
  have hhalf : r / 2 < 10 := by omega
  by_cases hpar : r % 2 = 0
  · rw [if_pos hpar, specMinRow]
    apply List.map_congr_left
    intro c hc
    have hc80 : c < 80 := List.mem_range.mp hc
    have hd : (80 * r + c) / 80 = r := by omega
    have hm : (80 * r + c) % 80 = c := by omega
    rw [hd, hm, scanAvgEntry, if_pos hpar,
      group9_eq_specGroup q h720 (r / 2) (by omega) c]
  · rw [if_neg hpar, specMeanRow]
    apply List.map_congr_left
    intro c hc
    have hc80 : c < 80 := List.mem_range.mp hc
    have hd : (80 * r + c) / 80 = r := by omega
    have hm : (80 * r + c) % 80 = c := by omega
    rw [hd, hm, scanAvgEntry, if_neg hpar,
      group9_eq_specGroup q h720 (r / 2) (by omega) c]

lemma specIntermediate_flatten_length (q : List (List ℝ)) :
    (specIntermediate q).flatten.length = 1600 := by
  rw [specIntermediate, pair_flatten, List.length_flatten, List.map_map]
  have : (List.range (2 * 10)).map
      (List.length ∘ fun r =>
        if r % 2 = 0 then specMinRow q (r / 2) else specMeanRow q (r / 2)) =
      (List.range (2 * 10)).map (fun _ => 80) := by
    apply List.map_congr_left
    intro r _
    by_cases hpar : r % 2 = 0
    · simp [hpar, specMinRow]
    · simp [hpar, specMeanRow]
  rw [this, List.map_const', List.sum_replicate]
  simp

lemma process_empty_queue_push (fm n : ℕ) (raw : List ℝ) :
    (processLaserScan fm n (.arr raw) false []).2 =
      resampleStep raw :: List.replicate (n - 1) (List.replicate raw.length 0) := by
  rw [processLaserScan_arr_snd, if_neg Bool.false_ne_true]
  simp only [List.length_nil, if_true]
  rw [resetLaserStack, List.dropLast_replicate]

lemma process_done_reset_state (fm n : ℕ) (scan : List ℝ) (q : List (List ℝ)) :
    (processLaserScan fm n (.arr scan) true q).2 =
      List.replicate n (List.replicate (resampleStep scan).length 0) := by
  rw [processLaserScan_arr_snd, if_pos rfl, resetLaserStack]

/-! ## Claim theorems -/

/-- C1: for every laser queue holding exactly 10 scans, each of length 720,
`_build_laser_map` returns the 80×80 array obtained by writing the per-group
minima of scan `n` into row `2n` and the per-group means into row `2n+1` of a
20×80 matrix (80 contiguous 9-element groups per scan), flattening it to 1600
values, tiling 4 times to 6400 values and reshaping into an 80×80 square
(stated on the row-major flattening of that square). -/
theorem buildLaserMap_matches_spec (q : List (List ℝ)) (h10 : q.length = 10)
    (h720 : ∀ s ∈ q, s.length = 720) :
    buildLaserMap 80 q = (specMap2D q).flatten := by
  have hb := buildBody_ok q h10 h720
  have hflat := scanAvgFlat_eq_specIntermediate q h10 h720
  have hlen : (specTiled q).length = 80 * 80 := by
    rw [specTiled]
    simp only [List.length_append, specIntermediate_flatten_length]
  have hchunk := chunk_flatten 80 80 (specTiled q) hlen
  calc buildLaserMap 80 q = tiledMap q.flatten := by unfold buildLaserMap; rw [hb]
    _ = specTiled q := by rw [tiledMap, specTiled, hflat]
    _ = (specMap2D q).flatten := by rw [specMap2D]; exact hchunk.symm

/-- Witness for C1 at the all-zero 10×720 queue. -/
theorem buildLaserMap_matches_spec_witness :
    (List.replicate 10 (List.replicate 720 (0:ℝ))).length = 10 ∧
    (∀ s ∈ List.replicate 10 (List.replicate 720 (0:ℝ)), s.length = 720) ∧
    buildLaserMap 80 (List.replicate 10 (List.replicate 720 (0:ℝ))) =
      (specMap2D (List.replicate 10 (List.replicate 720 (0:ℝ)))).flatten :=
  ⟨List.length_replicate 10 _,
    fun s hs => by rw [List.eq_of_mem_replicate hs, List.length_replicate],
    buildLaserMap_matches_spec _ (List.length_replicate 10 _)
      (fun s hs => by rw [List.eq_of_mem_replicate hs, List.length_replicate])⟩

/-- C3: the resampling shim triggers only on ndarray scans of length exactly
512; any other length passes through unchanged, a length-512 scan becomes a
length-720 array for any input values, and the array pushed to the front of
the queue by an encode step is exactly this (possibly resampled) array. -/
theorem resample_trigger_only_512 (scan : List ℝ) :
    (scan.length ≠ 512 → resampleStep scan = scan) ∧
    (scan.length = 512 → (resampleStep scan).length = 720) ∧
    (∀ fm n : ℕ, 0 < n → ∀ q : List (List ℝ),
      ((processLaserScan fm n (.arr scan) false q).2).head? =
        some (resampleStep scan)) := by
  refine ⟨resampleStep_of_length_ne scan, resampleStep_length_of_512 scan, ?_⟩
  intro fm n _ q
  rw [processLaserScan_arr_snd]
  simp

/-- Witness for C3 at a length-720 scan (pass-through) and a length-512 scan
(resampled to 720). -/
theorem resample_trigger_only_512_witness :
    ((List.replicate 720 (0:ℝ)).length ≠ 512 ∧
      resampleStep (List.replicate 720 (0:ℝ)) = List.replicate 720 (0:ℝ)) ∧
    ((List.replicate 512 (0:ℝ)).length = 512 ∧
      (resampleStep (List.replicate 512 (0:ℝ))).length = 720) ∧
    (0 < 10 ∧ ((processLaserScan 80 10 (.arr (List.replicate 512 (0:ℝ))) false []).2).head? =
      some (resampleStep (List.replicate 512 (0:ℝ)))) :=
  ⟨⟨by rw [List.length_replicate]; norm_num,
      (resample_trigger_only_512 _).1 (by rw [List.length_replicate]; norm_num)⟩,
    ⟨List.length_replicate 512 _,
      (resample_trigger_only_512 _).2.1 (List.length_replicate 512 _)⟩,
    by norm_num, (resample_trigger_only_512 _).2.2 80 10 (by norm_num) []⟩

/-- C4: an encode step whose laser input is an ndarray and whose done flag is
true leaves the queue equal to the all-zero reset state (zeros shaped like
the post-resampling scan), so no scan observed before the episode boundary
remains in the queue. -/
theorem process_done_resets_queue (fm n : ℕ) (_hn : 0 < n) (scan : List ℝ)
    (q : List (List ℝ)) :
    (processLaserScan fm n (.arr scan) true q).2 =
      List.replicate n (List.replicate (resampleStep scan).length 0) :=
  process_done_reset_state fm n scan q

/-- Witness for C4 at a length-720 scan and a queue with one stale entry. -/
theorem process_done_resets_queue_witness :
    0 < 10 ∧
    (processLaserScan 80 10 (.arr (List.replicate 720 (0:ℝ))) true
        [List.replicate 720 (5:ℝ)]).2 =
      List.replicate 10
        (List.replicate (resampleStep (List.replicate 720 (0:ℝ))).length 0) :=
  ⟨by norm_num,
    process_done_resets_queue 80 10 (by norm_num) _ [List.replicate 720 (5:ℝ)]⟩

/-- C5: starting from the empty queue the constructor creates, after any
nonempty sequence of encode calls with ndarray inputs the queue length equals
`laser_stack_size` (each push pops the oldest entry and conses the new scan),
including the first call and every call after a reset. -/
theorem queue_length_invariant (fm n : ℕ) (hn : 0 < n)
    (calls : List (List ℝ × Bool)) (hne : calls ≠ []) :
    (runQueue fm n calls).length = n := by
  obtain ⟨c, rest, rfl⟩ := List.exists_cons_of_ne_nil hne
  rw [runQueue, List.foldl_cons]
  exact foldl_queueStep_length fm n hn rest _ (queueStep_length fm n hn [] c (Or.inl rfl))

/-- Witness for C5: one call on the empty queue with stack size 10. -/
theorem queue_length_invariant_witness :
    0 < 10 ∧ ([((List.replicate 720 (0:ℝ)), false)] : List (List ℝ × Bool)) ≠ [] ∧
    (runQueue 80 10 [((List.replicate 720 (0:ℝ)), false)]).length = 10 :=
  ⟨by norm_num, List.cons_ne_nil _ _,
    queue_length_invariant 80 10 (by norm_num) _ (List.cons_ne_nil _ _)⟩

/-- C6 counterexample: the claim that every reset fills the queue with
all-zero scans of canonical length 720 regardless of the triggering raw
scan's native length fails on the stack-creation path: after the first encode
call on the empty queue with a raw scan of native length 512, the queue still
holds the reset entries `np.zeros_like(raw)` of length 512, not 720. -/
theorem reset_canonical_length_cex :
    ¬ (∀ s ∈ (processLaserScan 80 10 (.arr (List.replicate 512 (0:ℝ))) false []).2,
        s.length = 720) := by
  intro h
  have hmem : List.replicate 512 (0:ℝ) ∈
      (processLaserScan 80 10 (.arr (List.replicate 512 (0:ℝ))) false []).2 := by
    rw [process_empty_queue_push]
    refine List.mem_cons_of_mem _ (List.mem_replicate.mpr ⟨by norm_num, ?_⟩)
    rw [List.length_replicate]
  have h512 := h _ hmem
  rw [List.length_replicate] at h512
  exact absurd h512 (by norm_num)

/-- C6 amended: a reset fills the queue with all-zero scans shaped like the
scan passed to `_reset_laser_stack`: on stack creation that is the raw scan
before resampling (so a native length-512 trigger yields zero entries of
length 512), and on episode end it is the post-resampling scan. -/
theorem reset_shapes_follow_trigger_scan (n : ℕ) (_hn : 0 < n) (raw : List ℝ) :
    (∀ scan : List ℝ,
      resetLaserStack n scan = List.replicate n (List.replicate scan.length 0)) ∧
    (∀ fm : ℕ, (processLaserScan fm n (.arr raw) false []).2 =
      resampleStep raw :: List.replicate (n - 1) (List.replicate raw.length 0)) ∧
    (∀ fm : ℕ, ∀ q : List (List ℝ), (processLaserScan fm n (.arr raw) true q).2 =
      List.replicate n (List.replicate (resampleStep raw).length 0)) :=
  ⟨fun _ => rfl, fun fm => process_empty_queue_push fm n raw,
    fun fm q => process_done_reset_state fm n raw q⟩

/-- Witness for the amended C6 at a raw scan of native length 512. -/
theorem reset_shapes_follow_trigger_scan_witness :
    0 < 10 ∧
    (processLaserScan 80 10 (.arr (List.replicate 512 (0:ℝ))) false []).2 =
      resampleStep (List.replicate 512 (0:ℝ)) ::
        List.replicate (10 - 1) (List.replicate (List.replicate 512 (0:ℝ)).length 0) :=
  ⟨by norm_num,
    (reset_shapes_follow_trigger_scan 10 (by norm_num) _).2.1 80⟩

/-- C7: when the laser channel is not an ndarray, the encode step returns the
all-zero array of length `feature_map_size * feature_map_size`, leaves the
queue unchanged and raises nothing (it is a total function). -/
theorem process_not_array_fallback (fm n : ℕ) (done : Bool) (q : List (List ℝ)) :
    processLaserScan fm n .notArray done q = (List.replicate (fm * fm) 0, q) := rfl

/-- C8: any exception raised inside the pooling body is caught locally and
replaced by the all-zero array of the declared gym-space shape, and a
successful body result is passed through unchanged — `buildLaserMap` is a
total function of the queue, so nothing propagates to the encode caller. -/
theorem buildLaserMap_exception_fallback (fm : ℕ) (roi : ℝ) (q : List (List ℝ)) :
    (∀ e : Unit, buildBody q = .error e →
      buildLaserMap fm q = List.replicate (stackedGymSpace fm roi).shape 0) ∧
    (∀ m : List ℝ, buildBody q = .ok m → buildLaserMap fm q = m) := by
  constructor
  · intro e he
    unfold buildLaserMap
    rw [he]
    rfl
  · intro m hm
    unfold buildLaserMap
    rw [hm]

/-- Witness for C8: the empty queue makes the body raise (`np.min` of an
empty slice) and the fallback fires; a well-formed 10×720 queue succeeds and
is passed through. -/
theorem buildLaserMap_exception_fallback_witness :
    (buildBody ([] : List (List ℝ)) = .error () ∧
      buildLaserMap 80 ([] : List (List ℝ)) =
        List.replicate (stackedGymSpace 80 1).shape 0) ∧
    (buildBody (List.replicate 10 (List.replicate 720 (0:ℝ))) =
        .ok (tiledMap (List.replicate 10 (List.replicate 720 (0:ℝ))).flatten) ∧
      buildLaserMap 80 (List.replicate 10 (List.replicate 720 (0:ℝ))) =
        tiledMap (List.replicate 10 (List.replicate 720 (0:ℝ))).flatten) :=
  have herr : buildBody ([] : List (List ℝ)) = .error () := by
    rw [buildBody, if_pos (by decide), if_neg (by decide)]
  have hok : buildBody (List.replicate 10 (List.replicate 720 (0:ℝ))) =
      .ok (tiledMap (List.replicate 10 (List.replicate 720 (0:ℝ))).flatten) :=
    buildBody_ok _ (List.length_replicate 10 _)
      (fun s hs => by rw [List.eq_of_mem_replicate hs, List.length_replicate])
  ⟨⟨herr, (buildLaserMap_exception_fallback 80 1 []).1 () herr⟩,
    ⟨hok, (buildLaserMap_exception_fallback 80 1 _).2 _ hok⟩⟩

lemma foldl_min_le_init (xs : List ℝ) : ∀ a : ℝ, xs.foldl min a ≤ a := by
  induction xs with
  | nil => intro a; exact le_refl a
  | cons x xs ih =>
    intro a
    exact le_trans (ih (min a x)) (min_le_left a x)

lemma le_foldl_min (lo : ℝ) (xs : List ℝ) :
    ∀ a : ℝ, lo ≤ a → (∀ x ∈ xs, lo ≤ x) → lo ≤ xs.foldl min a := by
  induction xs with
  | nil => intro a ha _; exact ha
  | cons x xs ih =>
    intro a ha hxs
    exact ih (min a x) (le_min ha (hxs x (List.mem_cons_self x xs)))
      (fun y hy => hxs y (List.mem_cons_of_mem x hy))

lemma npMin_bounds (l : List ℝ) (lo hi : ℝ) (hne : l ≠ [])
    (hlo : ∀ x ∈ l, lo ≤ x) (hhi : ∀ x ∈ l, x ≤ hi) :
    lo ≤ npMin l ∧ npMin l ≤ hi := by
  match l, hne with
  | x :: xs, _ =>
    constructor
    · exact le_foldl_min lo xs x (hlo x (List.mem_cons_self x xs))
        (fun y hy => hlo y (List.mem_cons_of_mem x hy))
    · exact le_trans (foldl_min_le_init xs x) (hhi x (List.mem_cons_self x xs))

lemma npMean_bounds (l : List ℝ) (lo hi : ℝ) (hne : l ≠ [])
    (hlo : ∀ x ∈ l, lo ≤ x) (hhi : ∀ x ∈ l, x ≤ hi) :
    lo ≤ npMean l ∧ npMean l ≤ hi := by
  have hpos : (0 : ℝ) < (l.length : ℝ) := by
    exact_mod_cast List.length_pos.mpr hne
  unfold npMean
  constructor
  · rw [le_div_iff₀ hpos]
    have := List.card_nsmul_le_sum l lo hlo
    rw [nsmul_eq_mul] at this
    linarith
  · rw [div_le_iff₀ hpos]
    have := List.sum_le_card_nsmul l hi hhi
    rw [nsmul_eq_mul] at this
    linarith

lemma group9_subset (temp : List ℝ) (n i : ℕ) : group9 temp n i ⊆ temp := by
  have h1 : List.Sublist (group9 temp n i) (scanTmp temp n) :=
    (List.take_sublist _ _).trans (List.drop_sublist _ _)
  have h2 : List.Sublist (scanTmp temp n) temp :=
    (List.take_sublist _ _).trans (List.drop_sublist _ _)
  exact (h1.trans h2).subset

lemma scanAvgEntry_bounds (roi : ℝ) (q : List (List ℝ)) (h10 : q.length = 10)
    (h720 : ∀ s ∈ q, s.length = 720) (hb : ∀ s ∈ q, ∀ x ∈ s, 0 ≤ x ∧ x ≤ roi)
    (r c : ℕ) (hr : r < 20) (hc : c < 80) :
    0 ≤ scanAvgEntry q.flatten r c ∧ scanAvgEntry q.flatten r c ≤ roi := by
  have hne : group9 q.flatten (r / 2) c ≠ [] := by
    intro hempty
    exact groupsOK_of_uniform q h10 h720 (r / 2) (by omega) c (by omega)
      (by rw [hempty]; rfl)
  have hmem : ∀ x ∈ group9 q.flatten (r / 2) c, 0 ≤ x ∧ x ≤ roi := by
    intro x hx
    obtain ⟨s, hs, hxs⟩ := List.mem_flatten.mp (group9_subset _ _ _ hx)
    exact hb s hs x hxs
  unfold scanAvgEntry
  by_cases hpar : r % 2 = 0
  · rw [if_pos hpar]
    exact npMin_bounds _ 0 roi hne (fun x hx => (hmem x hx).1) (fun x hx => (hmem x hx).2)
  · rw [if_neg hpar]
    exact npMean_bounds _ 0 roi hne (fun x hx => (hmem x hx).1) (fun x hx => (hmem x hx).2)

set_option maxRecDepth 4000 in
/-- C9: for a valid numeric laser stack — 10 scans of length 720 whose
entries lie within the gym space's declared interval `[0, roi_in_m]` — the
map-building output has exactly `feature_map_size * feature_map_size`
elements (the declared shape at the hard-coded `feature_map_size = 80`) and
every element lies within `[low, high]` as declared by `get_gym_space`. -/
theorem buildLaserMap_shape_and_bounds (roi : ℝ) (q : List (List ℝ))
    (h10 : q.length = 10) (h720 : ∀ s ∈ q, s.length = 720)
    (hb : ∀ s ∈ q, ∀ x ∈ s, 0 ≤ x ∧ x ≤ roi) :
    (buildLaserMap 80 q).length = (stackedGymSpace 80 roi).shape ∧
    ∀ x ∈ buildLaserMap 80 q,
      (stackedGymSpace 80 roi).low ≤ x ∧ x ≤ (stackedGymSpace 80 roi).high := by
  have hbody := buildBody_ok q h10 h720
  have hmap : buildLaserMap 80 q = tiledMap q.flatten := by
    unfold buildLaserMap; rw [hbody]
  constructor
  · rw [hmap]
    simp only [tiledMap, List.length_append, scanAvgFlat, List.length_map,
      List.length_range, stackedGymSpace]
  · intro x hx
    rw [hmap] at hx
    have hx' : x ∈ scanAvgFlat q.flatten := by
      rw [tiledMap] at hx
      rcases List.mem_append.mp hx with h | h
      · rcases List.mem_append.mp h with h | h
        · rcases List.mem_append.mp h with h | h
          · exact h
          · exact h
        · exact h
      · exact h
    obtain ⟨k, hk, rfl⟩ := List.mem_map.mp hx'
    have hk1600 : k < 1600 := List.mem_range.mp hk
    have hbd := scanAvgEntry_bounds roi q h10 h720 hb (k / 80) (k % 80)
      (by omega) (by omega)
    exact ⟨hbd.1, hbd.2⟩

/-- Witness for C9 at the all-zero 10×720 queue with `roi_in_m = 1`. -/
theorem buildLaserMap_shape_and_bounds_witness :
    (List.replicate 10 (List.replicate 720 (0:ℝ))).length = 10 ∧
    (∀ s ∈ List.replicate 10 (List.replicate 720 (0:ℝ)), s.length = 720) ∧
    (∀ s ∈ List.replicate 10 (List.replicate 720 (0:ℝ)), ∀ x ∈ s, 0 ≤ x ∧ x ≤ (1:ℝ)) ∧
    ((buildLaserMap 80 (List.replicate 10 (List.replicate 720 (0:ℝ)))).length =
        (stackedGymSpace 80 1).shape ∧
      ∀ x ∈ buildLaserMap 80 (List.replicate 10 (List.replicate 720 (0:ℝ))),
        (stackedGymSpace 80 1).low ≤ x ∧ x ≤ (stackedGymSpace 80 1).high) :=
  have h10 : (List.replicate 10 (List.replicate 720 (0:ℝ))).length = 10 :=
    List.length_replicate 10 _
  have h720 : ∀ s ∈ List.replicate 10 (List.replicate 720 (0:ℝ)), s.length = 720 :=
    fun s hs => by rw [List.eq_of_mem_replicate hs, List.length_replicate]
  have hb : ∀ s ∈ List.replicate 10 (List.replicate 720 (0:ℝ)),
      ∀ x ∈ s, 0 ≤ x ∧ x ≤ (1:ℝ) := fun s hs x hx => by
    rw [List.eq_of_mem_replicate hs] at hx
    rw [List.eq_of_mem_replicate hx]
    norm_num
  ⟨h10, h720, hb, buildLaserMap_shape_and_bounds 1 _ h10 h720 hb⟩

/-- C10: `LaserScanSpace.encode_observation` on a 1-D laser array of length
`n` returns the 2-D array of shape `(1, n)` holding exactly the input values,
and `LaserScanSpace.get_gym_space` declares `Box(low=0, high=laser_max_range,
shape=(1, laser_num_beams), dtype=float32)`; when `n = laser_num_beams` the
encoded shape matches the declared shape exactly. -/
theorem laserEncode_shape_matches_space (obs : List ℝ) (numBeams : ℕ) (maxRange : ℝ) :
    laserEncodeObservation obs = [obs] ∧
    shape2 (laserEncodeObservation obs) = (1, obs.length) ∧
    laserGymSpace numBeams maxRange =
      ⟨0, maxRange, (1, numBeams), "float32"⟩ ∧
    (obs.length = numBeams →
      shape2 (laserEncodeObservation obs) = (laserGymSpace numBeams maxRange).shape) := by
  refine ⟨rfl, rfl, rfl, ?_⟩
  intro h
  simp [shape2, laserEncodeObservation, applyNormalizationWrapper, laserEncodeBody,
    laserGymSpace, h]

/-- Witness for C10 at a 3-beam scan with `laser_num_beams = 3`. -/
theorem laserEncode_shape_matches_space_witness :
    ([0, 1, 2] : List ℝ).length = 3 ∧
    shape2 (laserEncodeObservation [0, 1, 2]) = (laserGymSpace 3 5).shape :=
  ⟨rfl, (laserEncode_shape_matches_space [0, 1, 2] 3 5).2.2.2 rfl⟩

lemma tgtTheta_eq_specTheta (i : ℕ) : tgtTheta i = specTheta i := by
  rw [tgtTheta, specTheta]; norm_num

lemma srcTheta_eq_specBeamAngle (j : ℤ) : srcTheta j = specBeamAngle j := by
  rw [srcTheta, specBeamAngle]; norm_num

lemma specPos_eq_srcPos (i : ℕ) :
    (specTheta i + Real.pi) / (2 * Real.pi / 511) = srcPos i := by
  rw [srcPos, specTheta, tgtTheta]; norm_num

lemma srcPos_lt_512 (i : ℕ) (hi : i < 720) : srcPos i < 512 := by
  rw [srcPos, tgtTheta, div_lt_iff₀ (by positivity)]
  have hpi := Real.pi_pos
  have hi' : (i:ℝ) ≤ 719 := by exact_mod_cast Nat.le_of_lt_succ hi
  nlinarith [mul_le_mul_of_nonneg_left hi' (le_of_lt hpi)]

lemma neg_one_lt_srcPos (i : ℕ) : -1 < srcPos i := by
  rw [srcPos, tgtTheta, lt_div_iff₀ (by positivity)]
  have hpi := Real.pi_pos
  have hi0 : (0:ℝ) ≤ (i:ℝ) := Nat.cast_nonneg i
  nlinarith [mul_nonneg (le_of_lt hpi) hi0]

lemma specIdxLow_eq_idxLow (i : ℕ) (hi : i < 720) : specIdxLow i = idxLow i := by
  rw [specIdxLow, specPos_eq_srcPos, idxLow]
  have h1 : ⌊srcPos i⌋ < 512 := Int.floor_lt.mpr (by exact_mod_cast srcPos_lt_512 i hi)
  omega

lemma specIdxHigh_eq_idxHigh (i : ℕ) : specIdxHigh i = idxHigh i := by
  rw [specIdxHigh, specPos_eq_srcPos, idxHigh]
  have h1 : (-1 : ℤ) < ⌈srcPos i⌉ := Int.lt_ceil.mpr (by exact_mod_cast neg_one_lt_srcPos i)
  omega

lemma idxLow_nonneg (i : ℕ) : 0 ≤ idxLow i := le_max_left 0 _

lemma idxHigh_nonneg (i : ℕ) : 0 ≤ idxHigh i := by
  rw [idxHigh]
  have h1 : (-1 : ℤ) < ⌈srcPos i⌉ := Int.lt_ceil.mpr (by exact_mod_cast neg_one_lt_srcPos i)
  omega

lemma npGet_of_nonneg (scan : List ℝ) (idx : ℤ) (h : 0 ≤ idx) :
    npGet scan idx = scan.getD idx.toNat 0 := by
  rw [npGet, if_neg (not_lt.mpr h)]

/-- C2: for every input scan of length exactly 512, every entry of the
resampled array equals the spec's closed-form linear interpolation
`laser[idx_low] + ((θ_i − θ_low)/(θ_high − θ_low + 1e-12)) · (laser[idx_high] − laser[idx_low])`
with `θ_i = (i − 360)·2π/719`, `Δ_src = 2π/511`,
`idx_low = clamp(⌊(θ_i + π)/Δ_src⌋, 0, 511)`,
`idx_high = clamp(⌈(θ_i + π)/Δ_src⌉, 0, 511)` and `θ_low`, `θ_high` the
native beam angles at those indices: the code's one-sided clamps coincide
with the spec's two-sided clamps on every target index. -/
theorem resample_entry_matches_spec (scan : List ℝ) (h : scan.length = 512)
    (i : Fin 720) :
    (resampleStep scan).getD i 0 = specInterpAt scan i := by
  rw [resampleStep, if_pos h, getD_map_range _ 720 i i.isLt 0]
  rw [interpAt, specInterpAt, specIdxLow_eq_idxLow i i.isLt, specIdxHigh_eq_idxHigh i]
  rw [npGet_of_nonneg scan _ (idxLow_nonneg i), npGet_of_nonneg scan _ (idxHigh_nonneg i)]
  simp only [srcTheta_eq_specBeamAngle, tgtTheta_eq_specTheta, tinyEps]
  ring_nf

/-- Witness for C2 at the all-zero length-512 scan, target index 0. -/
theorem resample_entry_matches_spec_witness :
    (List.replicate 512 (0:ℝ)).length = 512 ∧
    (resampleStep (List.replicate 512 (0:ℝ))).getD 0 0 =
      specInterpAt (List.replicate 512 (0:ℝ)) 0 :=
  ⟨List.length_replicate 512 _,
    resample_entry_matches_spec _ (List.length_replicate 512 _) ⟨0, by norm_num⟩⟩

end Rosnav
